import Mathlib

/-!
Verification of the rocBLAS device-memory arena and handle-scoped resource
lifecycle, as implemented in the `_rocblas_handle` header and the
`rocblas_her` / `rocblas_gbmv_batched` routine entry points.

Machine `size_t` arithmetic is modelled as `Nat` arithmetic modulo `2 ^ 64`;
`rocblas_int` values are modelled as `Int`.  Device pointers are modelled as
`Option Nat` (`none` is the null pointer, `some a` a device address).
Externally-dispatched collaborators (the kernel backend, the numerics
checker, logging sinks) are abstracted as parameters.
-/

namespace RocblasArena

/- ## Definitions -/

/-- Modulus of `size_t` arithmetic. -/
def size_t_mod : Nat := 2 ^ 64

/-- Fixed chunk granularity `_rocblas_handle::MIN_CHUNK_SIZE` (a power of two). -/
def MIN_CHUNK_SIZE : Nat := 64

/-- Default device memory pool size `_rocblas_handle::DEFAULT_DEVICE_MEMORY_SIZE`. -/
def DEFAULT_DEVICE_MEMORY_SIZE : Nat := 4 * 1048576

/-- Status codes of `rocblas_status`, as used by the embedded routines. -/
inductive RocblasStatus where
  | success
  | invalid_handle
  | not_implemented
  | invalid_pointer
  | invalid_size
  | memory_error
  | internal_error
  | size_increased
  | size_unchanged
  | invalid_value
  | check_numerics_fail
  deriving DecidableEq

/-- The `rocblas_fill` argument of symmetric/Hermitian routines. -/
inductive RocblasFill where
  | upper
  | lower
  | full
  deriving DecidableEq

/-- The `rocblas_pointer_mode` context field. -/
inductive RocblasPointerMode where
  | host
  | device
  deriving DecidableEq

/-- State of `_rocblas_handle` relevant to the device memory arena: the pointer
mode, scheduling flag and numerics-check flag, the memory block (base address,
size, ownership), the in-use guard, the size-query flag with its accumulated
query size, and the GSU workspace fields. -/
structure Handle where
  pointer_mode : RocblasPointerMode := .host
  check_numerics : Bool := false
  any_order : Bool := false
  device_memory_size : Nat := 0
  device_memory_query_size : Nat := 0
  device_memory : Option Nat := none
  device_memory_is_rocblas_managed : Bool := false
  device_memory_in_use : Bool := false
  device_memory_size_query : Bool := false
  gsu_workspace_size : Nat := 0
  gsu_workspace : Option Nat := none
  deriving DecidableEq

/-- `_rocblas_handle::roundup_device_memory_size`: rounds `size` up to the next
multiple of `MIN_CHUNK_SIZE` by computing `((size - 1) | (MIN_CHUNK_SIZE - 1)) + 1`
in `size_t` arithmetic.  The subtraction `size - 1` wraps around for `size = 0`,
so every step is taken modulo `2 ^ 64`. -/
def roundup_device_memory_size (size : Nat) : Nat :=
  ((((size + size_t_mod - 1) % size_t_mod) ||| (MIN_CHUNK_SIZE - 1)) + 1) % size_t_mod

/-- The running total of `_device_malloc::allocate_pointers` (and of
`set_optimal_device_memory_size`): starting from `total`, accumulate the
chunk-rounded sizes left to right in `size_t` arithmetic. -/
def totalFrom (total : Nat) : List Nat → Nat
  | [] => total
  | s :: rest => totalFrom ((total + roundup_device_memory_size s) % size_t_mod) rest

/-- The offsets array of `_device_malloc::allocate_pointers`: element `i` is
the value of `total` before the `i`-th size is added, mirroring the pack
expansion `(old = total, total += roundup_device_memory_size(sizes), old)...`. -/
def offsetsFrom (total : Nat) : List Nat → List Nat
  | [] => []
  | s :: rest => total :: offsetsFrom ((total + roundup_device_memory_size s) % size_t_mod) rest

/-- `_rocblas_handle::set_optimal_device_memory_size`: outside a size query it
reports an internal error; inside a size query it rounds each size up to the
chunk granularity, sums them in `size_t` arithmetic, and raises the recorded
maximum `device_memory_query_size` exactly when the new total exceeds it,
reporting `size_increased` in that case and `size_unchanged` otherwise.
The C++ template requires at least one size argument. -/
def set_optimal_device_memory_size (h : Handle) (sizes : List Nat) :
    RocblasStatus × Handle :=
  if !h.device_memory_size_query then (.internal_error, h)
  else
    let total := totalFrom 0 sizes
    if total > h.device_memory_query_size then
      (.size_increased, { h with device_memory_query_size := total })
    else
      (.size_unchanged, h)

/-- Modelled from the spec: `rocblas_start_device_memory_size_query` is only
declared as a friend of `_rocblas_handle` here; per the spec the transition
`idle -> querying` begins a sizing session and zeroes the accumulated
requirement. -/
def start_device_memory_size_query (h : Handle) : Handle :=
  { h with device_memory_size_query := true, device_memory_query_size := 0 }

/-- Modelled from the spec: `rocblas_stop_device_memory_size_query` is only
declared as a friend of `_rocblas_handle` here; per the spec the transition
`querying -> idle` ends the session and the final recorded maximum is the
returned sizing hint. -/
def stop_device_memory_size_query (h : Handle) : Nat × Handle :=
  (h.device_memory_query_size, { h with device_memory_size_query := false })

/-- Observable state of a `_device_malloc` object: the success flag, the total
of the rounded sizes, and the array of sub-buffer pointers. -/
structure AllocResult where
  success : Bool
  total : Nat
  pointers : List (Option Nat)
  deriving DecidableEq

/-- `_device_malloc::allocate_pointers`, parametric in the handle's
`device_allocator` (a state-passing function from a requested size to an
optional block base).  Offsets are the partial sums of the chunk-rounded
sizes; a zero total succeeds trivially with null pointers and no allocator
call; a failed allocator call marks the allocation failed with null pointers;
otherwise pointer `i` is null for a zero `size_i` and `base + offsets[i]`
(in `size_t` arithmetic) for a nonzero `size_i`. -/
def allocate_pointers {σ : Type} (device_allocator : σ → Nat → Option Nat × σ)
    (st : σ) (sizes : List Nat) : AllocResult × σ :=
  let offsets := offsetsFrom 0 sizes
  let total := totalFrom 0 sizes
  if total = 0 then
    ({ success := true, total := total, pointers := List.replicate sizes.length none }, st)
  else
    match device_allocator st total with
    | (none, st1) =>
        ({ success := false, total := total,
           pointers := List.replicate sizes.length none }, st1)
    | (some ptr, st1) =>
        ({ success := true, total := total,
           pointers := (sizes.zip offsets).map fun p =>
             if p.1 = 0 then none else some ((ptr + p.2) % size_t_mod) }, st1)

/-- The destructor of `_device_malloc` marks the device memory as no longer in
use; it does not free or resize the block. -/
def device_malloc_destroy (h : Handle) : Handle :=
  { h with device_memory_in_use := false }

/-- Modelled from the spec: `_rocblas_handle::device_allocator` is declared in
the handle header but its body is not among these sources.  Per the spec, a
request that fits the current block is satisfied from the block; a
library-managed block may transparently grow to satisfy a larger request
(this model keeps a grown block at its previous base address); a
caller-managed block must never grow or be freed, so an oversized request
fails and a failed allocation leaves the handle's memory block untouched. -/
def device_allocator (h : Handle) (size : Nat) : Option Nat × Handle :=
  if size ≤ h.device_memory_size then
    (h.device_memory, { h with device_memory_in_use := true })
  else if h.device_memory_is_rocblas_managed then
    (some (h.device_memory.getD 0),
     { h with device_memory := some (h.device_memory.getD 0),
              device_memory_size := size,
              device_memory_in_use := true })
  else
    (none, h)

/-- Sample allocator used by witnesses: always yields block base 4096 and
counts its calls in the threaded state. -/
def sample_alloc (st : Nat) ( _size : Nat) : Option Nat × Nat := (some 4096, st + 1)

/-- A caller-managed sample handle with a 64-byte block at base 512. -/
def sample_handle_small : Handle :=
  { device_memory_size := 64, device_memory := some 512 }

/-- `_rocblas_handle::_gsu_malloc` constructor: allocates with the single size
`handle->device_memory_size` (the entire currently available block size), then
stores the allocated total into `gsu_workspace_size` if the allocation
succeeded (`0` otherwise) and the resulting pointer into `gsu_workspace`. -/
def gsu_malloc (h : Handle) : AllocResult × Handle :=
  let r := allocate_pointers device_allocator h [h.device_memory_size]
  (r.1, { r.2 with gsu_workspace_size := if r.1.success then r.1.total else 0,
                   gsu_workspace := r.1.pointers.headD none })

/-- The destructor of `_gsu_malloc` resets `gsu_workspace_size` and
`gsu_workspace`, and (through the base `_device_malloc` destructor) clears the
in-use guard. -/
def gsu_malloc_destroy (h : Handle) : Handle :=
  { h with gsu_workspace_size := 0, gsu_workspace := none,
           device_memory_in_use := false }

/-- The guard object of `_rocblas_handle::_pushed_state`: it owns the saved
old value of the overridden context field.  Copying is deleted in the source
(move-only); here the guard is consumed linearly by `pushed_state_destroy`. -/
structure PushedState (STATE : Type) where
  old_state : STATE

/-- The `_pushed_state` constructor: saves the current field value into the
guard and writes the new value into the field, once. -/
def pushed_state_construct {STATE : Type} (state new_state : STATE) :
    STATE × PushedState STATE :=
  (new_state, { old_state := state })

/-- The `_pushed_state` destructor: writes the saved old value back into the
field, once, whatever the field holds at that point. -/
def pushed_state_destroy {STATE : Type} (g : PushedState STATE) ( _state : STATE) :
    STATE :=
  g.old_state

/-- A call body running under a scoped override: the guard is constructed,
the body runs on the overridden field (returning the field it leaves behind
and a flag telling whether it exited normally or via an error path), and the
destructor restores the field when the scope ends. -/
def with_pushed_state {STATE : Type} (state new_state : STATE)
    (body : STATE → STATE × Bool) : STATE × Bool :=
  let c := pushed_state_construct state new_state
  let b := body c.1
  (pushed_state_destroy c.2 b.1, b.2)

/-- One recorded requirement: a head size and further sizes (the C++ template
requires at least one size per recording). -/
def recording_total (r : Nat × List Nat) : Nat := totalFrom 0 (r.1 :: r.2)

/-- Folding a sequence of requirement recordings through
`set_optimal_device_memory_size`. -/
def run_size_recordings (h : Handle) (recs : List (Nat × List Nat)) : Handle :=
  recs.foldl (fun h' r => (set_optimal_device_memory_size h' (r.1 :: r.2)).2) h

/-- `rocblas_her_impl` (entry point of `rocblas_cher`/`rocblas_zher`):
null-handle check first, then the size-query short circuit
(`RETURN_ZERO_DEVICE_MEMORY_SIZE_IF_QUERIED`), then logging (externally
dispatched, no effect on the status), then value, size, quick-return and
pointer checks, then dispatch to `rocblas_her_template` (abstracted as
`template_status`).  Pointer arguments are modelled by their nullness. -/
def rocblas_her_impl (handle : Option Handle) (uplo : RocblasFill) (n : Int)
    (alpha_null x_null : Bool) (incx : Int) (A_null : Bool) (lda : Int)
    (template_status : RocblasStatus) : RocblasStatus :=
  match handle with
  | none => .invalid_handle
  | some h =>
    if h.device_memory_size_query then .size_unchanged
    else if uplo ≠ .lower ∧ uplo ≠ .upper then .invalid_value
    else if n < 0 ∨ incx = 0 ∨ lda < n ∨ lda < 1 then .invalid_size
    else if n = 0 then .success
    else if x_null ∨ A_null ∨ alpha_null then .invalid_pointer
    else template_status

/-- `rocblas_gbmv_batched_impl` (entry point of `rocblas_*gbmv_batched`):
null-handle check first, then the size-query short circuit, then logging,
then size, quick-return and pointer checks, then the optional input
numerics check, the dispatch to `rocblas_gbmv_template`, and the optional
output numerics check (the three externally-dispatched statuses are
abstracted as parameters). -/
def rocblas_gbmv_batched_impl (handle : Option Handle) (m n kl ku : Int)
    (alpha_null A_null : Bool) (lda : Int) (x_null : Bool) (incx : Int)
    (beta_null y_null : Bool) (incy batch_count : Int)
    (check_input_status check_output_status template_status : RocblasStatus) :
    RocblasStatus :=
  match handle with
  | none => .invalid_handle
  | some h =>
    if h.device_memory_size_query then .size_unchanged
    else if m < 0 ∨ n < 0 ∨ lda < ku + kl + 1 ∨ incx = 0 ∨ incy = 0 ∨ kl < 0 ∨ ku < 0
            ∨ batch_count < 0 then .invalid_size
    else if m = 0 ∨ n = 0 ∨ batch_count = 0 then .success
    else if A_null ∨ x_null ∨ y_null ∨ alpha_null ∨ beta_null then .invalid_pointer
    else if h.check_numerics ∧ check_input_status ≠ .success then check_input_status
    else if template_status ≠ .success then template_status
    else if h.check_numerics ∧ check_output_status ≠ .success then check_output_status
    else template_status

/- ## Theorems -/

/- ### Bit-level facts about the rounding expression -/
theorem lor_chunk_mask_mod (x : Nat) : (x ||| 63) % 64 = 63 := by
  have h64 : (64 : Nat) = 2 ^ 6 := by norm_num
  have h63 : (63 : Nat) = 2 ^ 6 - 1 := by norm_num
  apply Nat.eq_of_testBit_eq
  intro i
  rw [h64, Nat.testBit_mod_two_pow]
  by_cases hi : i < 6
  · have ht : Nat.testBit 63 i = true := by
      rw [h63, Nat.testBit_two_pow_sub_one]
      simp [hi]
    simp [hi, Nat.testBit_or, ht]
  · have ht : Nat.testBit 63 i = false := by
      rw [h63, Nat.testBit_two_pow_sub_one]
      simp [hi]
    simp [hi, ht]

theorem lor_chunk_mask_div (x : Nat) : (x ||| 63) / 64 = x / 64 := by
  have h1 : (x ||| 63) >>> 6 = x >>> 6 := by
    apply Nat.eq_of_testBit_eq
    intro i
    rw [Nat.testBit_shiftRight, Nat.testBit_shiftRight, Nat.testBit_or]
    have ht : Nat.testBit 63 (6 + i) = false := by
      apply Nat.testBit_lt_two_pow
      calc (63 : Nat) < 2 ^ 6 := by norm_num
        _ ≤ 2 ^ (6 + i) := Nat.pow_le_pow_right (by norm_num) (by omega)
    simp [ht]
  have h2 : (x ||| 63) >>> 6 = (x ||| 63) / 64 := by
    rw [Nat.shiftRight_eq_div_pow]
  have h3 : x >>> 6 = x / 64 := by
    rw [Nat.shiftRight_eq_div_pow]
  omega

/-- The bitwise-or in the rounding expression equals clearing the low six bits
and setting them all: `x ||| 63 = 64 * (x / 64) + 63`. -/
theorem lor_chunk_mask_eq (x : Nat) : x ||| 63 = 64 * (x / 64) + 63 := by
  have hd := Nat.div_add_mod (x ||| 63) 64
  rw [lor_chunk_mask_mod, lor_chunk_mask_div] at hd
  omega

/-- Every chunk-rounded size is a multiple of the chunk granularity (including
the wraparound cases). -/
theorem roundup_mod_chunk (s : Nat) :
    roundup_device_memory_size s % MIN_CHUNK_SIZE = 0 := by
  unfold roundup_device_memory_size MIN_CHUNK_SIZE
  have hdvd : (64 : Nat) ∣ size_t_mod := by
    unfold size_t_mod
    exact ⟨2 ^ 58, by norm_num⟩
  rw [Nat.mod_mod_of_dvd _ hdvd]
  rw [lor_chunk_mask_eq]
  omega

/-- The chunk-rounded size is always below the `size_t` modulus. -/
theorem roundup_lt_mod (s : Nat) : roundup_device_memory_size s < size_t_mod := by
  unfold roundup_device_memory_size
  exact Nat.mod_lt _ (by unfold size_t_mod; positivity)

/-- C5 (amended): for every size `s` with `1 ≤ s` and `s + MIN_CHUNK_SIZE ≤ 2 ^ 64`
(so that the increment cannot wrap around `size_t`), the chunk rounding function
satisfies `round_up(s) % C = 0`, `round_up(s) ≥ s` and `round_up(s) < s + C`
with `C = MIN_CHUNK_SIZE = 64`. -/
theorem c5_roundup_correct (s : Nat) (h1 : 1 ≤ s) (h2 : s + MIN_CHUNK_SIZE ≤ size_t_mod) :
    roundup_device_memory_size s % MIN_CHUNK_SIZE = 0
    ∧ s ≤ roundup_device_memory_size s
    ∧ roundup_device_memory_size s < s + MIN_CHUNK_SIZE := by
  have hC : MIN_CHUNK_SIZE = 64 := rfl
  have hsub : s + size_t_mod - 1 = size_t_mod + (s - 1) := by omega
  have hs1 : s - 1 < size_t_mod := by
    have : (0 : Nat) < size_t_mod := by unfold size_t_mod; positivity
    omega
  have hmod1 : (s + size_t_mod - 1) % size_t_mod = s - 1 := by
    rw [hsub, Nat.add_mod_left, Nat.mod_eq_of_lt hs1]
  have hdm := Nat.div_add_mod (s - 1) 64
  have hrem : (s - 1) % 64 < 64 := Nat.mod_lt _ (by norm_num)
  have hval : roundup_device_memory_size s = 64 * ((s - 1) / 64) + 64 := by
    unfold roundup_device_memory_size
    rw [hmod1, hC, lor_chunk_mask_eq]
    have hsmall : 64 * ((s - 1) / 64) + 63 + 1 < size_t_mod := by
      have hle : 64 * ((s - 1) / 64) ≤ s - 1 := Nat.mul_div_le _ _
      unfold MIN_CHUNK_SIZE at h2
      omega
    rw [Nat.mod_eq_of_lt hsmall]
  rw [hval, hC]
  omega

/-- Witness for C5 at `s = 100`: the hypotheses hold and the rounded size is a
correct chunk-aligned upper bound. -/
theorem c5_roundup_correct_witness :
    (1 ≤ 100 ∧ 100 + MIN_CHUNK_SIZE ≤ size_t_mod)
    ∧ (roundup_device_memory_size 100 % MIN_CHUNK_SIZE = 0
       ∧ 100 ≤ roundup_device_memory_size 100
       ∧ roundup_device_memory_size 100 < 100 + MIN_CHUNK_SIZE) :=
  ⟨⟨by decide, by decide⟩, c5_roundup_correct 100 (by decide) (by decide)⟩

/-- C5 counterexample: at `s = 2 ^ 64 - 1` (a valid `size_t` value with `s ≥ 1`)
the rounding expression wraps around and returns `0`, violating
`round_up(s) ≥ s`; the claim as stated for every `s ≥ 1` is therefore false. -/
theorem c5_roundup_counterexample :
    1 ≤ size_t_mod - 1
    ∧ roundup_device_memory_size (size_t_mod - 1) = 0
    ∧ ¬(size_t_mod - 1 ≤ roundup_device_memory_size (size_t_mod - 1)) := by
  refine ⟨by decide, by decide, by decide⟩

/-- The running total equals the plain sum of the rounded sizes, reduced
modulo `2 ^ 64`. -/
theorem totalFrom_eq_sum_mod (l : List Nat) :
    ∀ t, t < size_t_mod →
      totalFrom t l = (t + (l.map roundup_device_memory_size).sum) % size_t_mod := by
  induction l with
  | nil =>
    intro t ht
    simp [totalFrom, Nat.mod_eq_of_lt ht]
  | cons s rest ih =>
    intro t ht
    have hlt : (t + roundup_device_memory_size s) % size_t_mod < size_t_mod :=
      Nat.mod_lt _ (by unfold size_t_mod; positivity)
    rw [totalFrom, ih _ hlt, List.map_cons, List.sum_cons, Nat.mod_add_mod]
    ring_nf

/-- The running total stays a multiple of the chunk granularity. -/
theorem totalFrom_mod_chunk (l : List Nat) :
    ∀ t, t % MIN_CHUNK_SIZE = 0 → totalFrom t l % MIN_CHUNK_SIZE = 0 := by
  induction l with
  | nil => intro t ht; exact ht
  | cons s rest ih =>
    intro t ht
    apply ih
    have hdvd : MIN_CHUNK_SIZE ∣ size_t_mod := by
      refine ⟨2 ^ 58, by norm_num [MIN_CHUNK_SIZE, size_t_mod]⟩
    rw [Nat.mod_mod_of_dvd _ hdvd, Nat.add_mod, ht, roundup_mod_chunk]
    simp

/-- The running total stays below the `size_t` modulus. -/
theorem totalFrom_lt_mod (l : List Nat) :
    ∀ t, t < size_t_mod → totalFrom t l < size_t_mod := by
  induction l with
  | nil => intro t ht; exact ht
  | cons s rest ih =>
    intro t _
    exact ih _ (Nat.mod_lt _ (by unfold size_t_mod; positivity))

/-- C2: while the handle is in size-query mode, `set_optimal_device_memory_size`
rounds each size to the chunk granularity and sums the rounded sizes (in
`size_t` arithmetic); the recorded maximum is updated to the sum and the call
reports `size_increased` exactly when the sum exceeds it, and otherwise the
maximum is unchanged and the call reports `size_unchanged`; the memory block,
its size and the in-use guard are untouched, so no allocation is performed. -/
theorem c2_set_optimal_in_query (h : Handle) (s0 : Nat) (rest : List Nat) :
    (totalFrom 0 (s0 :: rest)
      = ((s0 :: rest).map roundup_device_memory_size).sum % size_t_mod)
    ∧ ((set_optimal_device_memory_size { h with device_memory_size_query := true }
          (s0 :: rest)).1 = .size_increased
        ↔ totalFrom 0 (s0 :: rest) > h.device_memory_query_size)
    ∧ ((set_optimal_device_memory_size { h with device_memory_size_query := true }
          (s0 :: rest)).1 = .size_increased
       ∨ (set_optimal_device_memory_size { h with device_memory_size_query := true }
          (s0 :: rest)).1 = .size_unchanged)
    ∧ (set_optimal_device_memory_size { h with device_memory_size_query := true }
        (s0 :: rest)).2
      = { h with device_memory_size_query := true,
                 device_memory_query_size :=
                   if totalFrom 0 (s0 :: rest) > h.device_memory_query_size then
                     totalFrom 0 (s0 :: rest)
                   else h.device_memory_query_size } := by
  have hsum := totalFrom_eq_sum_mod (s0 :: rest) 0 (by unfold size_t_mod; positivity)
  refine ⟨by simpa using hsum, ?_, ?_, ?_⟩
  · unfold set_optimal_device_memory_size
    by_cases hgt : totalFrom 0 (s0 :: rest) > h.device_memory_query_size <;>
      simp [hgt]
  · unfold set_optimal_device_memory_size
    by_cases hgt : totalFrom 0 (s0 :: rest) > h.device_memory_query_size <;>
      simp [hgt]
  · unfold set_optimal_device_memory_size
    by_cases hgt : totalFrom 0 (s0 :: rest) > h.device_memory_query_size <;>
      simp [hgt]

/-- C8: calling `set_optimal_device_memory_size` while the handle is not in
size-query mode reports an internal error and leaves the handle, and in
particular the recorded query size, unchanged. -/
theorem c8_set_optimal_not_in_query (h : Handle) (sizes : List Nat) :
    set_optimal_device_memory_size { h with device_memory_size_query := false } sizes
      = (.internal_error, { h with device_memory_size_query := false })
    ∧ (set_optimal_device_memory_size { h with device_memory_size_query := false }
        sizes).2.device_memory_query_size = h.device_memory_query_size := by
  unfold set_optimal_device_memory_size
  simp

/-- Element `i` of the offsets array is the running total over the first `i`
sizes. -/
theorem offsetsFrom_get (l : List Nat) :
    ∀ t i s, l[i]? = some s → (offsetsFrom t l)[i]? = some (totalFrom t (l.take i)) := by
  induction l with
  | nil => intro t i s hget; simp at hget
  | cons x rest ih =>
    intro t i s hget
    match i with
    | 0 => simp [offsetsFrom, totalFrom]
    | j + 1 =>
      simp only [offsetsFrom, List.getElem?_cons_succ, List.take_succ_cons] at hget ⊢
      rw [totalFrom]
      exact ih _ j s hget

/-- Element `i` of the produced pointer array, as a function of `size_i` and
the running total over the first `i` sizes. -/
theorem zip_offsets_map_get (f : Nat × Nat → Option Nat) (l : List Nat) :
    ∀ t i s, l[i]? = some s →
      ((l.zip (offsetsFrom t l)).map f)[i]? = some (f (s, totalFrom t (l.take i))) := by
  induction l with
  | nil => intro t i s hget; simp at hget
  | cons x rest ih =>
    intro t i s hget
    match i with
    | 0 =>
      simp only [List.getElem?_cons_zero, Option.some_inj] at hget
      subst hget
      simp [offsetsFrom, totalFrom]
    | j + 1 =>
      simp only [offsetsFrom, List.getElem?_cons_succ, List.take_succ_cons,
        List.zip_cons_cons, List.map_cons] at hget ⊢
      rw [totalFrom]
      exact ih _ j s hget

/-- C1: whenever the handle's allocator yields a block for the computed total,
the allocation succeeds, its total is the `size_t` sum of the chunk-rounded
sizes, every partial total (hence every offset) is a multiple of
`MIN_CHUNK_SIZE`, and pointer `i` is the block base plus the partial sum of
the rounded sizes of the preceding requests — except that a zero-sized request
yields a null pointer for its slot; if the total is `0` the allocation
succeeds with all pointers null and without calling the allocator (the state
threaded through the allocator is returned untouched). -/
theorem c1_allocate_pointers_success {σ : Type} (alloc : σ → Nat → Option Nat × σ)
    (st : σ) (sizes : List Nat) (base : Nat) (st1 : σ)
    (halloc : totalFrom 0 sizes ≠ 0 → alloc st (totalFrom 0 sizes) = (some base, st1)) :
    ((allocate_pointers alloc st sizes).1.success = true)
    ∧ ((allocate_pointers alloc st sizes).1.total
        = (sizes.map roundup_device_memory_size).sum % size_t_mod)
    ∧ (∀ i, totalFrom 0 (sizes.take i) % MIN_CHUNK_SIZE = 0)
    ∧ (totalFrom 0 sizes ≠ 0 →
        ∀ i s, sizes[i]? = some s →
          (allocate_pointers alloc st sizes).1.pointers[i]?
            = some (if s = 0 then none
                    else some ((base + totalFrom 0 (sizes.take i)) % size_t_mod)))
    ∧ (totalFrom 0 sizes = 0 →
        (allocate_pointers alloc st sizes).1.pointers = List.replicate sizes.length none
        ∧ (allocate_pointers alloc st sizes).2 = st) := by
  have hpos : (0 : Nat) < size_t_mod := by unfold size_t_mod; positivity
  have htot := totalFrom_eq_sum_mod sizes 0 hpos
  have hchunk : ∀ i, totalFrom 0 (sizes.take i) % MIN_CHUNK_SIZE = 0 := fun i =>
    totalFrom_mod_chunk (sizes.take i) 0 (by simp)
  by_cases h0 : totalFrom 0 sizes = 0
  · have hz : (sizes.map roundup_device_memory_size).sum % size_t_mod = 0 := by
      have h' := htot
      rw [h0] at h'
      simpa using h'.symm
    refine ⟨?_, ?_, hchunk, ?_, ?_⟩ <;>
      simp [allocate_pointers, h0, hz]
  · have halloc' := halloc h0
    refine ⟨?_, ?_, hchunk, ?_, fun hc => absurd hc h0⟩
    · simp [allocate_pointers, h0, halloc']
    · simp [allocate_pointers, h0, halloc', htot.symm]
      simp [htot]
    · intro _ i s hget
      have hmap := zip_offsets_map_get
        (fun p => if p.1 = 0 then none else some ((base + p.2) % size_t_mod))
        sizes 0 i s hget
      simp only [allocate_pointers, h0, if_neg h0, halloc']
      simpa using hmap

/-- Witness for C1: a three-request allocation `[100, 0, 50]` through
`sample_alloc` succeeds with the claimed pointer layout. -/
theorem c1_allocate_pointers_success_witness :
    (totalFrom 0 [100, 0, 50] ≠ 0 →
      sample_alloc 0 (totalFrom 0 [100, 0, 50]) = (some 4096, 1))
    ∧ (((allocate_pointers sample_alloc 0 [100, 0, 50]).1.success = true)
       ∧ (((allocate_pointers sample_alloc 0 [100, 0, 50]).1.total
            = ([100, 0, 50].map roundup_device_memory_size).sum % size_t_mod))
       ∧ (∀ i, totalFrom 0 ([100, 0, 50].take i) % MIN_CHUNK_SIZE = 0)
       ∧ (totalFrom 0 [100, 0, 50] ≠ 0 →
           ∀ i s, [100, 0, 50][i]? = some s →
             (allocate_pointers sample_alloc 0 [100, 0, 50]).1.pointers[i]?
               = some (if s = 0 then none
                       else some ((4096 + totalFrom 0 ([100, 0, 50].take i)) % size_t_mod)))
       ∧ (totalFrom 0 [100, 0, 50] = 0 →
           (allocate_pointers sample_alloc 0 [100, 0, 50]).1.pointers
             = List.replicate ([100, 0, 50] : List Nat).length none
           ∧ (allocate_pointers sample_alloc 0 [100, 0, 50]).2 = 0)) :=
  ⟨fun _ => rfl,
   c1_allocate_pointers_success sample_alloc 0 [100, 0, 50] 4096 1 (fun _ => rfl)⟩

/-- The total field of an allocation always records the running total of the
chunk-rounded sizes, whichever branch was taken. -/
theorem allocate_pointers_total {σ : Type} (alloc : σ → Nat → Option Nat × σ)
    (st : σ) (sizes : List Nat) :
    (allocate_pointers alloc st sizes).1.total = totalFrom 0 sizes := by
  unfold allocate_pointers
  by_cases h0 : totalFrom 0 sizes = 0
  · simp [h0]
  · rcases heq : alloc st (totalFrom 0 sizes) with ⟨o, st1⟩
    cases o <;> simp [h0, heq]

/-- An all-zero size list accumulates a zero total: each rounded size is `0`
by the wraparound of `size - 1`. -/
theorem totalFrom_replicate_zero :
    ∀ (k t : Nat), t < size_t_mod → totalFrom t (List.replicate k 0) = t := by
  intro k
  induction k with
  | zero => intro t ht; rfl
  | succ n ih =>
    intro t ht
    have hz : roundup_device_memory_size 0 = 0 := by decide
    rw [List.replicate_succ, totalFrom, hz, Nat.add_zero, Nat.mod_eq_of_lt ht]
    exact ih t ht

/-- C10: the chunk rounding function applied to `0` wraps around modulo
`2 ^ 64` and returns `0` — a case outside the spec's rounding property;
consequently an all-zero size list accumulates a total of `0`, an allocation
of only zero sizes takes the trivial-success path (all pointers null, the
allocator state untouched), and a size-query recording of only zero sizes
reports `size_unchanged` and leaves the recorded maximum unchanged. -/
theorem c10_roundup_zero_wraparound :
    roundup_device_memory_size 0 = 0
    ∧ (∀ k : Nat, totalFrom 0 (List.replicate k 0) = 0)
    ∧ (∀ (σ : Type) (alloc : σ → Nat → Option Nat × σ) (st : σ) (k : Nat),
        allocate_pointers alloc st (List.replicate k 0)
          = ({ success := true, total := 0, pointers := List.replicate k none }, st))
    ∧ (∀ (h : Handle) (k : Nat),
        set_optimal_device_memory_size { h with device_memory_size_query := true }
            (List.replicate (k + 1) 0)
          = (.size_unchanged, { h with device_memory_size_query := true })) := by
  have hpos : (0 : Nat) < size_t_mod := by unfold size_t_mod; positivity
  have htot : ∀ k : Nat, totalFrom 0 (List.replicate k 0) = 0 := fun k =>
    totalFrom_replicate_zero k 0 hpos
  refine ⟨by decide, htot, ?_, ?_⟩
  · intro σ alloc st k
    simp [allocate_pointers, htot k]
  · intro h k
    simp [set_optimal_device_memory_size, htot (k + 1)]

/-- A failed allocator call leaves the handle's memory block (base and size)
untouched. -/
theorem device_allocator_fail_state (h : Handle) (size : Nat)
    (hfail : (device_allocator h size).1 = none) :
    (device_allocator h size).2.device_memory = h.device_memory
    ∧ (device_allocator h size).2.device_memory_size = h.device_memory_size := by
  unfold device_allocator at hfail ⊢
  by_cases h1 : size ≤ h.device_memory_size
  · simp [h1]
  · by_cases h2 : h.device_memory_is_rocblas_managed = true
    · simp [h1, h2] at hfail
    · simp [h1, h2]

/-- C3: when the handle's allocator returns no block, the allocation is still
validly constructed with `success = false` and all pointers null, and once the
allocation's scope ends (its destructor runs) the handle's memory block is
unchanged and the in-use guard is cleared; the destructor never frees or
resizes the underlying block. -/
theorem c3_allocation_failure (h : Handle) (sizes : List Nat)
    (hne : totalFrom 0 sizes ≠ 0)
    (hfail : (device_allocator h (totalFrom 0 sizes)).1 = none) :
    ((allocate_pointers device_allocator h sizes).1.success = false)
    ∧ ((allocate_pointers device_allocator h sizes).1.pointers
        = List.replicate sizes.length none)
    ∧ ((device_malloc_destroy (allocate_pointers device_allocator h sizes).2).device_memory
        = h.device_memory)
    ∧ ((device_malloc_destroy
          (allocate_pointers device_allocator h sizes).2).device_memory_size
        = h.device_memory_size)
    ∧ ((device_malloc_destroy
          (allocate_pointers device_allocator h sizes).2).device_memory_in_use
        = false)
    ∧ (∀ h' : Handle, (device_malloc_destroy h').device_memory = h'.device_memory
        ∧ (device_malloc_destroy h').device_memory_size = h'.device_memory_size) := by
  obtain ⟨hm, hs⟩ := device_allocator_fail_state h (totalFrom 0 sizes) hfail
  rcases heq : device_allocator h (totalFrom 0 sizes) with ⟨o, h1⟩
  have ho : o = none := by rw [heq] at hfail; exact hfail
  subst ho
  rw [heq] at hm hs
  simp only at hm hs
  refine ⟨?_, ?_, ?_, ?_, ?_, fun h' => ⟨rfl, rfl⟩⟩ <;>
    simp [allocate_pointers, hne, heq, device_malloc_destroy, hm, hs]

/-- Witness for C3: a 100-byte request (rounded to 128) on the caller-managed
64-byte sample handle fails, leaving the block untouched and the guard clear. -/
theorem c3_allocation_failure_witness :
    (totalFrom 0 [100] ≠ 0
     ∧ (device_allocator sample_handle_small (totalFrom 0 [100])).1 = none)
    ∧ (((allocate_pointers device_allocator sample_handle_small [100]).1.success = false)
       ∧ ((allocate_pointers device_allocator sample_handle_small [100]).1.pointers
           = List.replicate ([100] : List Nat).length none)
       ∧ ((device_malloc_destroy
             (allocate_pointers device_allocator sample_handle_small [100]).2).device_memory
           = sample_handle_small.device_memory)
       ∧ ((device_malloc_destroy
             (allocate_pointers device_allocator
               sample_handle_small [100]).2).device_memory_size
           = sample_handle_small.device_memory_size)
       ∧ ((device_malloc_destroy
             (allocate_pointers device_allocator
               sample_handle_small [100]).2).device_memory_in_use
           = false)
       ∧ (∀ h' : Handle, (device_malloc_destroy h').device_memory = h'.device_memory
           ∧ (device_malloc_destroy h').device_memory_size = h'.device_memory_size)) :=
  ⟨⟨by decide, by decide⟩,
   c3_allocation_failure sample_handle_small [100] (by decide) (by decide)⟩

/-- Unfolding equation for `gsu_malloc` in terms of the result of its inner
allocation. -/
theorem gsu_malloc_eq (h : Handle) (r : AllocResult) (h1 : Handle)
    (heq : allocate_pointers device_allocator h [h.device_memory_size] = (r, h1)) :
    gsu_malloc h
      = (r, { h1 with gsu_workspace_size := if r.success then r.total else 0,
                      gsu_workspace := r.pointers.headD none }) := by
  unfold gsu_malloc
  rw [heq]

/-- C9: every `gsu_malloc` construction requests exactly the handle's entire
current block size (one request of `device_memory_size`, so the allocation
total is its chunk-rounded value), sets `gsu_workspace_size` to the allocated
total if the allocation succeeded and `0` otherwise, and sets `gsu_workspace`
to the resulting pointer; on destruction both fields are reset to `0` and
null. -/
theorem c9_gsu_malloc (h : Handle) :
    ((gsu_malloc h).1 = (allocate_pointers device_allocator h [h.device_memory_size]).1)
    ∧ ((gsu_malloc h).1.total = roundup_device_memory_size h.device_memory_size)
    ∧ ((gsu_malloc h).2.gsu_workspace_size
        = (if (gsu_malloc h).1.success then (gsu_malloc h).1.total else 0))
    ∧ ((gsu_malloc h).2.gsu_workspace = (gsu_malloc h).1.pointers.headD none)
    ∧ (∀ h' : Handle, (gsu_malloc_destroy h').gsu_workspace_size = 0
        ∧ (gsu_malloc_destroy h').gsu_workspace = none
        ∧ (gsu_malloc_destroy h').device_memory_in_use = false) := by
  rcases heq : allocate_pointers device_allocator h [h.device_memory_size] with ⟨r, h1⟩
  have hg := gsu_malloc_eq h r h1 heq
  have htot : r.total = roundup_device_memory_size h.device_memory_size := by
    have ht := allocate_pointers_total device_allocator h [h.device_memory_size]
    rw [heq] at ht
    rw [ht, totalFrom, totalFrom, Nat.zero_add]
    exact Nat.mod_eq_of_lt (roundup_lt_mod _)
  refine ⟨?_, ?_, ?_, ?_, fun h' => ⟨rfl, rfl, rfl⟩⟩ <;>
    simp [hg, htot]

/-- C4: for every context field value and every override value, the guard
writes the override into the field exactly once at construction (the body
observes exactly the overridden value) and writes the prior value back at
destruction, whatever the body did to the field in between and whether it
exited normally or via an error path; destroying the guard again would
restore the same prior value (the saved state is immutable), and double
restoration is prevented in the source by deleted copy operations. -/
theorem c4_pushed_state_override (STATE : Type) (state new_state : STATE)
    (body : STATE → STATE × Bool) :
    ((pushed_state_construct state new_state).1 = new_state)
    ∧ ((pushed_state_construct state new_state).2.old_state = state)
    ∧ ((with_pushed_state state new_state body).1 = state)
    ∧ ((with_pushed_state state new_state body).2 = (body new_state).2)
    ∧ (∀ x y : STATE,
        pushed_state_destroy (pushed_state_construct state new_state).2 x
          = pushed_state_destroy (pushed_state_construct state new_state).2 y) := by
  exact ⟨rfl, rfl, rfl, rfl, fun x y => rfl⟩

/-- In query mode, one recording keeps the query flag set and raises the
recorded maximum to the max of its previous value and the new total. -/
theorem set_optimal_query_state (h : Handle) (hq : h.device_memory_size_query = true)
    (sizes : List Nat) :
    (set_optimal_device_memory_size h sizes).2
      = { h with device_memory_query_size :=
                   max h.device_memory_query_size (totalFrom 0 sizes) } := by
  unfold set_optimal_device_memory_size
  rw [hq]
  by_cases hgt : totalFrom 0 sizes > h.device_memory_query_size
  · simp only [Bool.not_true, Bool.false_eq_true, if_false, if_pos hgt]
    congr 1
    omega
  · simp only [Bool.not_true, Bool.false_eq_true, if_false, if_neg hgt]
    have hm : max h.device_memory_query_size (totalFrom 0 sizes)
        = h.device_memory_query_size := by omega
    rw [hm, ← hq]

/-- While in query mode, a sequence of recordings keeps the query flag set and
accumulates the max of the recorded totals over the starting maximum. -/
theorem run_size_recordings_query (recs : List (Nat × List Nat)) :
    ∀ h : Handle, h.device_memory_size_query = true →
      (run_size_recordings h recs).device_memory_size_query = true
      ∧ (run_size_recordings h recs).device_memory_query_size
          = recs.foldl (fun q r => max q (recording_total r))
              h.device_memory_query_size := by
  induction recs with
  | nil => intro h hq; exact ⟨hq, rfl⟩
  | cons r rest ih =>
    intro h hq
    rw [run_size_recordings, List.foldl_cons, ← run_size_recordings,
        set_optimal_query_state h hq (r.1 :: r.2), List.foldl_cons]
    exact ih _ hq

/-- A max-fold from the left equals the max of the start value and the
max-fold from the right. -/
theorem foldl_max_eq (f : Nat × List Nat → Nat) (l : List (Nat × List Nat)) :
    ∀ a : Nat, l.foldl (fun q r => max q (f r)) a
      = max a ((l.map f).foldr max 0) := by
  induction l with
  | nil => intro a; simp
  | cons r rest ih =>
    intro a
    rw [List.foldl_cons, ih, List.map_cons, List.foldr_cons, max_assoc]

/-- A max-fold is invariant under permutation of the list. -/
theorem foldl_max_perm (f : Nat × List Nat → Nat) :
    ∀ {l l' : List (Nat × List Nat)}, l.Perm l' →
      ∀ a : Nat, l.foldl (fun q r => max q (f r)) a
        = l'.foldl (fun q r => max q (f r)) a := by
  intro l l' p
  induction p with
  | nil => intro a; rfl
  | cons x _ ih => intro a; rw [List.foldl_cons, List.foldl_cons, ih]
  | swap x y l => intro a; rw [List.foldl_cons, List.foldl_cons, List.foldl_cons,
      List.foldl_cons, sup_right_comm]
  | trans _ _ ih1 ih2 => intro a; rw [ih1, ih2]

/-- C6: for every finite sequence of requirement recordings within one
size-query session, the value returned when the session ends is the maximum
over all recorded (rounded, summed) totals, and it is invariant under
permutation of the recording order. -/
theorem c6_query_session_max (h : Handle) (recs recs' : List (Nat × List Nat))
    (hperm : recs.Perm recs') :
    ((stop_device_memory_size_query
        (run_size_recordings (start_device_memory_size_query h) recs)).1
      = (recs.map recording_total).foldr max 0)
    ∧ ((stop_device_memory_size_query
        (run_size_recordings (start_device_memory_size_query h) recs)).1
      = (stop_device_memory_size_query
          (run_size_recordings (start_device_memory_size_query h) recs')).1) := by
  have hq : (start_device_memory_size_query h).device_memory_size_query = true := rfl
  have h1 := run_size_recordings_query recs (start_device_memory_size_query h) hq
  have h2 := run_size_recordings_query recs' (start_device_memory_size_query h) hq
  have hq0 : (start_device_memory_size_query h).device_memory_query_size = 0 := rfl
  constructor
  · rw [stop_device_memory_size_query]
    rw [h1.2, hq0, foldl_max_eq]
    simp
  · rw [stop_device_memory_size_query, stop_device_memory_size_query]
    rw [h1.2, h2.2, foldl_max_perm recording_total hperm]

/-- Witness for C6: two recordings of 100 and 200 bytes, in either order, end
the session with `round_up(200) = 256 = max(128, 256)`. -/
theorem c6_query_session_max_witness :
    (([((100 : Nat), ([] : List Nat)), (200, [])]).Perm [(200, []), (100, [])])
    ∧ (((stop_device_memory_size_query
          (run_size_recordings (start_device_memory_size_query {})
            [(100, []), (200, [])])).1
        = ([((100 : Nat), ([] : List Nat)), (200, [])].map recording_total).foldr max 0)
       ∧ ((stop_device_memory_size_query
            (run_size_recordings (start_device_memory_size_query {})
              [(100, []), (200, [])])).1
          = (stop_device_memory_size_query
              (run_size_recordings (start_device_memory_size_query {})
                [(200, []), (100, [])])).1)) :=
  ⟨List.Perm.swap _ _ _,
   c6_query_session_max {} [(100, []), (200, [])] [(200, []), (100, [])]
     (List.Perm.swap _ _ _)⟩

/-- C7: the two witnessed routine entry points follow the uniform contract
order.  A null handle is the very first check and yields `invalid_handle`
(the models are pure, so no other state is touched); a handle in size-query
mode makes the routine record its (empty) requirement and return
`size_unchanged` before any argument validation, whatever the remaining
arguments; then invalid values (for `her`), then invalid sizes — even when
pointers are also null; then the quick return with `success` on degenerate
sizes, accepting null data pointers; and only then the non-null pointer
checks. -/
theorem c7_uniform_contract_order (h : Handle) (uplo : RocblasFill)
    (n incx lda m kl ku incy batch_count : Int)
    (alpha_null x_null A_null beta_null y_null : Bool)
    (ci co ts : RocblasStatus) :
    (rocblas_her_impl none uplo n alpha_null x_null incx A_null lda ts
      = .invalid_handle)
    ∧ (rocblas_gbmv_batched_impl none m n kl ku alpha_null A_null lda x_null incx
        beta_null y_null incy batch_count ci co ts = .invalid_handle)
    ∧ (h.device_memory_size_query = true →
        rocblas_her_impl (some h) uplo n alpha_null x_null incx A_null lda ts
          = .size_unchanged)
    ∧ (h.device_memory_size_query = true →
        rocblas_gbmv_batched_impl (some h) m n kl ku alpha_null A_null lda x_null
          incx beta_null y_null incy batch_count ci co ts = .size_unchanged)
    ∧ (h.device_memory_size_query = false →
        uplo ≠ .lower → uplo ≠ .upper →
        rocblas_her_impl (some h) uplo n alpha_null x_null incx A_null lda ts
          = .invalid_value)
    ∧ (h.device_memory_size_query = false →
        (uplo = .lower ∨ uplo = .upper) →
        (n < 0 ∨ incx = 0 ∨ lda < n ∨ lda < 1) →
        rocblas_her_impl (some h) uplo n alpha_null x_null incx A_null lda ts
          = .invalid_size)
    ∧ (h.device_memory_size_query = false →
        (uplo = .lower ∨ uplo = .upper) →
        ¬(n < 0 ∨ incx = 0 ∨ lda < n ∨ lda < 1) →
        n = 0 →
        rocblas_her_impl (some h) uplo n alpha_null x_null incx A_null lda ts
          = .success)
    ∧ (h.device_memory_size_query = false →
        (uplo = .lower ∨ uplo = .upper) →
        ¬(n < 0 ∨ incx = 0 ∨ lda < n ∨ lda < 1) →
        n ≠ 0 →
        (x_null = true ∨ A_null = true ∨ alpha_null = true) →
        rocblas_her_impl (some h) uplo n alpha_null x_null incx A_null lda ts
          = .invalid_pointer)
    ∧ (h.device_memory_size_query = false →
        (m < 0 ∨ n < 0 ∨ lda < ku + kl + 1 ∨ incx = 0 ∨ incy = 0 ∨ kl < 0 ∨ ku < 0
          ∨ batch_count < 0) →
        rocblas_gbmv_batched_impl (some h) m n kl ku alpha_null A_null lda x_null
          incx beta_null y_null incy batch_count ci co ts = .invalid_size)
    ∧ (h.device_memory_size_query = false →
        ¬(m < 0 ∨ n < 0 ∨ lda < ku + kl + 1 ∨ incx = 0 ∨ incy = 0 ∨ kl < 0 ∨ ku < 0
          ∨ batch_count < 0) →
        (m = 0 ∨ n = 0 ∨ batch_count = 0) →
        rocblas_gbmv_batched_impl (some h) m n kl ku alpha_null A_null lda x_null
          incx beta_null y_null incy batch_count ci co ts = .success)
    ∧ (h.device_memory_size_query = false →
        ¬(m < 0 ∨ n < 0 ∨ lda < ku + kl + 1 ∨ incx = 0 ∨ incy = 0 ∨ kl < 0 ∨ ku < 0
          ∨ batch_count < 0) →
        m ≠ 0 → n ≠ 0 → batch_count ≠ 0 →
        (A_null = true ∨ x_null = true ∨ y_null = true ∨ alpha_null = true
          ∨ beta_null = true) →
        rocblas_gbmv_batched_impl (some h) m n kl ku alpha_null A_null lda x_null
          incx beta_null y_null incy batch_count ci co ts = .invalid_pointer) := by
  refine ⟨rfl, rfl, ?_, ?_, ?_, ?_, ?_, ?_, ?_, ?_, ?_⟩
  · intro hq
    simp [rocblas_her_impl, hq]
  · intro hq
    simp [rocblas_gbmv_batched_impl, hq]
  · intro hq h1 h2
    simp [rocblas_her_impl, hq, h1, h2]
  · intro hq hup hsz
    rcases hup with rfl | rfl <;> simp [rocblas_her_impl, hq, hsz]
  · intro hq hup hsz hn0
    subst hn0
    rcases hup with rfl | rfl <;> simp [rocblas_her_impl, hq, hsz] <;> omega
  · intro hq hup hsz hn0 hptr
    rcases hup with rfl | rfl <;>
      rcases hptr with hp | hp | hp <;>
        simp [rocblas_her_impl, hq, hsz, hn0, hp]
  · intro hq hsz
    simp [rocblas_gbmv_batched_impl, hq, hsz]
  · intro hq hsz hdeg
    rcases hdeg with rfl | rfl | rfl <;>
      simp [rocblas_gbmv_batched_impl, hq, hsz] <;> omega
  · intro hq hsz hm hn hbc hptr
    rcases hptr with hp | hp | hp | hp | hp <;>
      simp [rocblas_gbmv_batched_impl, hq, hsz, hm, hn, hbc, hp]

/-- Witness for C7: concrete evaluations of both entry points at inputs
exercising each stage of the contract order. -/
theorem c7_uniform_contract_order_witness :
    (rocblas_her_impl none .upper 3 false false 1 false 3 .success = .invalid_handle)
    ∧ (rocblas_gbmv_batched_impl none 3 3 0 0 false false 3 false 1 false false 1 1
        .success .success .success = .invalid_handle)
    ∧ (rocblas_her_impl (some { device_memory_size_query := true }) .full (-5) true
        true 0 true 0 .success = .size_unchanged)
    ∧ (rocblas_gbmv_batched_impl (some { device_memory_size_query := true }) (-5)
        (-5) (-1) (-1) true true 0 true 0 true true 0 (-1) .success .success .success
        = .size_unchanged)
    ∧ (rocblas_her_impl (some {}) .full (-5) true true 0 true 0 .success
        = .invalid_value)
    ∧ (rocblas_her_impl (some {}) .upper (-5) true true 0 true 0 .success
        = .invalid_size)
    ∧ (rocblas_her_impl (some {}) .upper 0 true true 1 true 1 .success = .success)
    ∧ (rocblas_her_impl (some {}) .upper 2 true true 1 true 2 .success
        = .invalid_pointer)
    ∧ (rocblas_gbmv_batched_impl (some {}) (-1) 3 0 0 false false 3 false 1 false
        false 1 1 .success .success .success = .invalid_size)
    ∧ (rocblas_gbmv_batched_impl (some {}) 0 0 0 0 true true 1 true 1 true true 1 0
        .success .success .success = .success)
    ∧ (rocblas_gbmv_batched_impl (some {}) 1 1 0 0 false true 1 false 1 false false
        1 1 .success .success .success = .invalid_pointer) := by
  have hfalse : ({} : Handle).device_memory_size_query = false := rfl
  have htrue : ({ device_memory_size_query := true } : Handle).device_memory_size_query
      = true := rfl
  refine ⟨?_, ?_, ?_, ?_, ?_, ?_, ?_, ?_, ?_, ?_, ?_⟩
  · exact (c7_uniform_contract_order {} .upper 3 1 3 3 0 0 1 1 false false false
      false false .success .success .success).1
  · exact (c7_uniform_contract_order {} .upper 3 1 3 3 0 0 1 1 false false false
      false false .success .success .success).2.1
  · exact (c7_uniform_contract_order { device_memory_size_query := true } .full (-5)
      0 0 3 0 0 1 1 true true true false false .success .success .success).2.2.1 htrue
  · exact (c7_uniform_contract_order { device_memory_size_query := true } .full (-5)
      0 0 (-5) (-1) (-1) 0 (-1) true true true true true .success .success
      .success).2.2.2.1 htrue
  · exact (c7_uniform_contract_order {} .full (-5) 0 0 3 0 0 1 1 true true true
      false false .success .success .success).2.2.2.2.1 hfalse (by decide) (by decide)
  · exact (c7_uniform_contract_order {} .upper (-5) 0 0 3 0 0 1 1 true true true
      false false .success .success .success).2.2.2.2.2.1 hfalse (Or.inr rfl)
      (by omega)
  · exact (c7_uniform_contract_order {} .upper 0 1 1 3 0 0 1 1 true true true false
      false .success .success .success).2.2.2.2.2.2.1 hfalse (Or.inr rfl) (by omega)
      rfl
  · exact (c7_uniform_contract_order {} .upper 2 1 2 3 0 0 1 1 true true true false
      false .success .success .success).2.2.2.2.2.2.2.1 hfalse (Or.inr rfl)
      (by omega) (by omega) (Or.inl rfl)
  · exact (c7_uniform_contract_order {} .upper 3 1 3 (-1) 0 0 1 1 false false false
      false false .success .success .success).2.2.2.2.2.2.2.2.1 hfalse (by omega)
  · exact (c7_uniform_contract_order {} .upper 0 1 1 0 0 0 1 0 true true true true
      true .success .success .success).2.2.2.2.2.2.2.2.2.1 hfalse (by omega)
      (by omega)
  · exact (c7_uniform_contract_order {} .upper 1 1 1 1 0 0 1 1 false false true
      false false .success .success .success).2.2.2.2.2.2.2.2.2.2 hfalse (by omega)
      (by omega) (by omega) (by omega) (Or.inl rfl)

end RocblasArena
